import Mathlib

/-!
Verification development for the SOP-to-BPMN generator pipeline.

Shallow embedding of the repository's core:
  * `state.py`            — the Pydantic data model (`ProcessNode`, `ProcessFlow`,
                            `ProcessGraph`, `AuditResult`) and the shared graph state;
  * `intelligent_validator_agent.py` — the structural validator
                            (`validate_graph_with_code`) and the hybrid validator agent;
  * `main.py`             — the router `route_based_on_next_action`;
  * `sop_structurer.py`   — the retry-wrapped graph generation
                            (`generate_and_validate_process_graph`, tries = 3);
  * `bpmn_engineer_agent.py` — the layout traversal and the BPMN 2.0 XML compiler.

External LLM calls are modelled as explicit parameters (an audit outcome, a
generation-attempt outcome function, a uuid supply): the embedded functions are
deterministic functions of their inputs plus those parameters.
-/

/- ===================== Data model (state.py) ===================== -/

/-- `ProcessNode.type` values: the `Literal["task","gateway","startEvent","endEvent"]`
of `state.py`. -/
inductive NodeType where
  | task
  | gateway
  | startEvent
  | endEvent
deriving DecidableEq

/-- `ProcessNode` of `state.py`: `id`, `type`, `label`. -/
structure ProcessNode where
  id : String
  type : NodeType
  label : String
deriving DecidableEq

/-- `ProcessFlow` of `state.py`: `source_id`, `target_id`, optional `condition`. -/
structure ProcessFlow where
  source_id : String
  target_id : String
  condition : Option String
deriving DecidableEq

/-- `ProcessGraph` of `state.py`: `titre`, `nodes`, `flows`. -/
structure ProcessGraph where
  titre : String
  nodes : List ProcessNode
  flows : List ProcessFlow
deriving DecidableEq

/-- `AuditResult` of `state.py`: `is_logical`, `reason`. -/
structure AuditResult where
  is_logical : Bool
  reason : String
deriving DecidableEq

/-- A validation report dictionary `{"status": ..., "reason": ...}` as built by
`intelligent_validator_agent.py`. -/
structure ValidationReport where
  status : String
  reason : String
deriving DecidableEq

/- ===================== Structural validator (intelligent_validator_agent.py, validate_graph_with_code) ===================== -/

/-- Number of outgoing flows of a node:
`sum(1 for flow in flows if flow.get('source_id') == node_id)`. -/
def outgoingCount (flows : List ProcessFlow) (nid : String) : Nat :=
  (flows.filter (fun f => f.source_id == nid)).length

/-- The failure message of the empty-graph check in `validate_graph_with_code`. -/
def emptyGraphReason : String := "Le graphe est vide (pas de nœuds ou de flux)."

/-- The success message of `validate_graph_with_code`. -/
def validOkReason : String := "La structure de base du graphe est valide."

/-- The gateway-violation message of `validate_graph_with_code` (the f-string of
line 98 of `intelligent_validator_agent.py`). -/
def gatewayReason (n : ProcessNode) (k : Nat) : String :=
  "ERREUR LOGIQUE : La passerelle de décision '" ++ n.label ++ "' (ID: " ++ n.id ++
    ") est invalide. Elle doit avoir au moins 2 sorties, mais n'en a que " ++ toString k ++ "."

/-- The scan of `validate_graph_with_code`'s `for node in nodes` loop: the first
node of kind `gateway` with fewer than 2 outgoing flows, with its count. -/
def findGatewayViolation (flows : List ProcessFlow) : List ProcessNode → Option (ProcessNode × Nat)
  | [] => none
  | n :: rest =>
    if n.type = NodeType.gateway then
      let k := outgoingCount flows n.id
      if k < 2 then some (n, k) else findGatewayViolation flows rest
    else findGatewayViolation flows rest

/-- `validate_graph_with_code(graph_dict)` of `intelligent_validator_agent.py`:
returns `(est_valide, message)`; empty nodes or flows fail first, then each
gateway must have at least 2 outgoing flows (first violation reported). -/
def validate_graph_with_code (g : ProcessGraph) : Bool × String :=
  if g.nodes.isEmpty || g.flows.isEmpty then (false, emptyGraphReason)
  else
    match findGatewayViolation g.flows g.nodes with
    | some (n, k) => (false, gatewayReason n k)
    | none => (true, validOkReason)

/- ===================== Validator agent (intelligent_validator_agent.py) ===================== -/

/-- Outcome of `get_llm_audit` (the retry-wrapped external auditor call):
either a Pydantic-validated `AuditResult`, or the exception that escaped the
retry wrapper (`InvalidAuditResponseError` / `RuntimeError`). -/
inductive AuditOutcome where
  | ok : AuditResult → AuditOutcome
  | failed : String → AuditOutcome
deriving DecidableEq

/-- The state update returned by `intelligent_validator_agent`. The
`correction_feedback` field is `none` when the returned dict has no such key
(the audit-failure branch), and `some v` when the key is present with value `v`. -/
structure ValidatorOutput where
  validation_report : ValidationReport
  correction_feedback : Option (Option String)
  next_action : String
deriving DecidableEq

/-- The `ValueError` message raised in step 0 when the graph dict is missing. -/
def missingGraphError : String := "Le graphe de processus est manquant."

/-- The FAILURE reason of step 0: `f"La structure du graphe fournie est invalide : {e}"`. -/
def structureFailureReason (e : String) : String :=
  "La structure du graphe fournie est invalide : " ++ e

/-- The FAILURE reason of the audit-failure branch:
`f"L'auditeur IA a échoué. Erreur : {e}"`. -/
def auditFailureReason (e : String) : String :=
  "L'auditeur IA a échoué. Erreur : " ++ e

/-- `intelligent_validator_agent(state)` of `intelligent_validator_agent.py`,
with the external audit call's outcome passed in as `audit`. The graph dict is
modelled already-typed, so the step-0 Pydantic check fails exactly when the
graph is absent. Step 1 is the code validator; step 2 consults the auditor. -/
def intelligent_validator_agent (structured_sop : Option ProcessGraph)
    (audit : AuditOutcome) : ValidatorOutput :=
  match structured_sop with
  | none =>
    let reason := structureFailureReason missingGraphError
    ⟨⟨"FAILURE", reason⟩, some (some reason), "structure_sop"⟩
  | some g =>
    let v := validate_graph_with_code g
    if v.1 then
      match audit with
      | AuditOutcome.ok ar =>
        if ar.is_logical then ⟨⟨"SUCCESS", ar.reason⟩, some none, "generate_report"⟩
        else ⟨⟨"REJECTED", ar.reason⟩, some (some ar.reason), "structure_sop"⟩
      | AuditOutcome.failed e =>
        ⟨⟨"FAILURE", auditFailureReason e⟩, none, "end_with_error"⟩
    else
      ⟨⟨"REJECTED", v.2⟩, some (some v.2), "structure_sop"⟩

/- ===================== Router (main.py) ===================== -/

/-- LangGraph's terminal pseudo-node `END`. -/
def LANGGRAPH_END : String := "__end__"

/-- `route_based_on_next_action(state)` of `main.py`: `END` when `next_action`
is absent, empty or `"end_with_error"`, else the named node. -/
def route_based_on_next_action (next_action : Option String) : String :=
  match next_action with
  | none => LANGGRAPH_END
  | some a => if a = "" || a = "end_with_error" then LANGGRAPH_END else a

/- ===================== Retry wrapper and structurer agent (sop_structurer.py) ===================== -/

/-- An exception raised by one generation attempt: `formatError` is an
`InvalidProcessGraphError` (no JSON block, or Pydantic schema failure),
`callError` is a `RuntimeError` from the Together API wrapper. Both are in
the retry decorator's exception tuple; only the first is caught by
`sop_structure_agent`'s `except` clause. -/
inductive GenError where
  | formatError : String → GenError
  | callError : String → GenError
deriving DecidableEq

/-- The `@retry((InvalidProcessGraphError, RuntimeError), tries=3, ...)` wrapper
around `generate_and_validate_process_graph`, with the underlying attempts
modelled by `gen : Nat → Except GenError ProcessGraph` (attempt index ↦
outcome; either listed exception is retried — a schema-valid graph is
`Except.ok` and is returned at once, whatever a later semantic audit would say
of it). Returns the number of invocations made together with the final
outcome; `tries` counts the total number of attempts, the last exception
escaping when they are exhausted. -/
def retryCall (gen : Nat → Except GenError ProcessGraph) (attempt : Nat) :
    Nat → Nat × Except GenError ProcessGraph
  | 0 => (0, Except.error (GenError.callError "retry: tries must be at least 1"))
  | tries + 1 =>
    match gen attempt with
    | Except.ok g => (1, Except.ok g)
    | Except.error e =>
      if tries = 0 then (1, Except.error e)
      else
        let r := retryCall gen (attempt + 1) tries
        (r.1 + 1, r.2)

/-- `generate_and_validate_process_graph` as invoked by `sop_structure_agent`:
the retry wrapper with `tries = 3`, counting invocations. -/
def generate_and_validate_process_graph (gen : Nat → Except GenError ProcessGraph) :
    Nat × Except GenError ProcessGraph :=
  retryCall gen 0 3

/-- The state update returned by `sop_structure_agent`. `correction_feedback`
is `none` when the returned dict has no such key (the failure branch) and
`some v` when present with value `v`. -/
structure StructurerOutput where
  structured_sop : Option ProcessGraph
  correction_feedback : Option (Option String)
  next_action : String
deriving DecidableEq

/-- `sop_structure_agent(state)` of `sop_structurer.py`, with the retry-wrapped
generator's attempt outcomes passed in as `gen` (prompt construction does not
change the control flow and is elided). The guard `if not text_to_structure:`
takes the error return for a missing and for an empty description alike. The
`except InvalidProcessGraphError` clause turns an exhausted format error into
a clean `end_with_error` return; an exhausted `RuntimeError` is not caught and
propagates out of the agent (`Except.error`). -/
def sop_structure_agent (general_response : Option String)
    (gen : Nat → Except GenError ProcessGraph) : Except String StructurerOutput :=
  match general_response with
  | none => Except.ok ⟨none, none, "end_with_error"⟩
  | some t =>
    if t = "" then Except.ok ⟨none, none, "end_with_error"⟩
    else
      match (generate_and_validate_process_graph gen).2 with
      | Except.ok g => Except.ok ⟨some g, some none, "validate_sop"⟩
      | Except.error (GenError.formatError _) => Except.ok ⟨none, none, "end_with_error"⟩
      | Except.error (GenError.callError e) => Except.error e

/- ===================== Python numbers (int/float) for the layout ===================== -/

/-- An exact, unnormalized rational `num / den`: the value of a Python number
as the layout code computes it (every value the layout computes is a dyadic
rational far below 2^53, on which Python float arithmetic is exact). Kept
unnormalized so the arithmetic is plain integer arithmetic. -/
structure PyRat where
  num : ℤ
  den : ℤ
deriving DecidableEq

/-- The rational value represented. -/
def PyRat.toRat (a : PyRat) : ℚ := (a.num : ℚ) / (a.den : ℚ)

def PyRat.ofInt (n : ℤ) : PyRat := ⟨n, 1⟩

def PyRat.add (a b : PyRat) : PyRat := ⟨a.num * b.den + b.num * a.den, a.den * b.den⟩

def PyRat.sub (a b : PyRat) : PyRat := ⟨a.num * b.den - b.num * a.den, a.den * b.den⟩

def PyRat.mul (a b : PyRat) : PyRat := ⟨a.num * b.num, a.den * b.den⟩

def PyRat.div (a b : PyRat) : PyRat := ⟨a.num * b.den, a.den * b.num⟩

/-- Python's numeric `==` on values (int/float compare by value):
cross-multiplication equality. -/
def PyRat.valEq (a b : PyRat) : Bool := a.num * b.den == b.num * a.den

/-- Python's numeric `!=` on values. -/
def PyRat.valNe (a b : PyRat) : Bool := !(PyRat.valEq a b)

/-- Python's `int(v)`: truncation toward zero. -/
def PyRat.trunc (a : PyRat) : ℤ := a.num.tdiv a.den

/-- A Python number as the layout code produces it: an int or a float, with
its exact value. The tag records int-versus-float, which Python's arithmetic
propagates and Python's `str` distinguishes. -/
structure PyNum where
  isFloat : Bool
  val : PyRat
deriving DecidableEq

/-- A Python int literal. -/
def PyNum.ofInt (n : ℤ) : PyNum := ⟨false, PyRat.ofInt n⟩

instance : Add PyNum := ⟨fun a b => ⟨a.isFloat || b.isFloat, a.val.add b.val⟩⟩

instance : Sub PyNum := ⟨fun a b => ⟨a.isFloat || b.isFloat, a.val.sub b.val⟩⟩

instance : Mul PyNum := ⟨fun a b => ⟨a.isFloat || b.isFloat, a.val.mul b.val⟩⟩

/-- Python's true division `/`: always a float. -/
def PyNum.trueDiv (a b : PyNum) : PyNum := ⟨true, a.val.div b.val⟩

/-- The rational value of a Python number. -/
def PyNum.qVal (a : PyNum) : ℚ := a.val.toRat

/-- Python's `str` on a number. Every number the layout renders holds an
integral value, and on integral values below 2^53 Python prints an int as its
digits and a float as the digits followed by `.0`, which is what this renders
(a non-integral float would print differently, but none arises). -/
def PyNum.pyStr (a : PyNum) : String :=
  if a.isFloat then toString a.val.trunc ++ ".0" else toString a.val.trunc

/- ===================== Layout engine (bpmn_engineer_agent.py, section 1) ===================== -/

/-- Drawing constants of `bpmn_engineer_agent.py`. -/
def X_START : ℤ := 150

/-- Drawing constants of `bpmn_engineer_agent.py`. -/
def Y_START : ℤ := 250

/-- Horizontal gap `X_GAP` of `bpmn_engineer_agent.py`. -/
def X_GAP : ℤ := 120

/-- Vertical gap `Y_GAP` of `bpmn_engineer_agent.py`. -/
def Y_GAP : ℤ := 120

/-- The `SIZES` table of `bpmn_engineer_agent.py` (width, height by node type);
total because `ProcessNode.type` is the Pydantic `Literal` of those four kinds. -/
def SIZES : NodeType → ℤ × ℤ
  | NodeType.startEvent => (36, 36)
  | NodeType.endEvent => (36, 36)
  | NodeType.task => (100, 80)
  | NodeType.gateway => (50, 50)

/-- An entry of `visited_coords`: `{'x': x, 'y': cy, 'width': w, 'height': h}`. -/
structure Coords where
  x : PyNum
  y : PyNum
  width : ℤ
  height : ℤ
deriving DecidableEq

/-- `nodes_by_id = {node.id: node for node in nodes}`: a Python dict
comprehension keeps the last node with a given id, hence the reversed search. -/
def nodesById (nodes : List ProcessNode) (nid : String) : Option ProcessNode :=
  nodes.reverse.find? (fun n => n.id == nid)

/-- Python's `enumerate`, with a starting index. -/
def enumFrom {α : Type} : Nat → List α → List (Nat × α)
  | _, [] => []
  | i, a :: as => (i, a) :: enumFrom (i + 1) as

/-- The sort key `lambda f: f.condition or ''`. -/
def pyCondKey (f : ProcessFlow) : String := f.condition.getD ""

/-- Lexicographic order on code points — Python's `<` on strings. -/
def charListLt : List Char → List Char → Bool
  | [], [] => false
  | [], _ :: _ => true
  | _ :: _, [] => false
  | a :: as, b :: bs => decide (a < b) || (a == b && charListLt as bs)

/-- Python's `<` on strings. -/
def strLt (a b : String) : Bool := charListLt a.data b.data

/-- Stable insertion of `f` in front of the first strictly larger key:
an element inserted from the original head precedes equal keys, so
`pySortByKey` reproduces Python's stable `sorted`. -/
def insertSorted (key : ProcessFlow → String) (f : ProcessFlow) :
    List ProcessFlow → List ProcessFlow
  | [] => [f]
  | g :: gs => if strLt (key g) (key f) then g :: insertSorted key f gs else f :: g :: gs

/-- Python's `sorted(l, key=key)`: stable, ascending by key. -/
def pySortByKey (key : ProcessFlow → String) : List ProcessFlow → List ProcessFlow
  | [] => []
  | f :: fs => insertSorted key f (pySortByKey key fs)

/-- The outgoing flows of a node in the order the layout iterates them:
`sorted(outgoing_flows, key=lambda f: f.condition or '')`. -/
def sortedOutgoing (flows : List ProcessFlow) (nid : String) : List ProcessFlow :=
  pySortByKey pyCondKey (flows.filter (fun f => f.source_id == nid))

/-- The queue entries one loop iteration appends (lines 90–97 of
`bpmn_engineer_agent.py`): `next_x = x + w + X_GAP`; child `i` of a gateway is
enqueued at `y + (i - (len(outgoing_flows) - 1) / 2) * Y_GAP` (true division:
a float), a non-gateway child at `y` itself. -/
def enqueueChildren (node : ProcessNode) (x y : PyNum) (flows : List ProcessFlow) :
    List (String × PyNum × PyNum) :=
  let outgoing_flows := flows.filter (fun f => f.source_id == node.id)
  let is_gateway := node.type = NodeType.gateway
  let next_x := x + PyNum.ofInt (SIZES node.type).1 + PyNum.ofInt X_GAP
  (enumFrom 0 (pySortByKey pyCondKey outgoing_flows)).map (fun p =>
    let next_y := if is_gateway then
        y + (PyNum.ofInt (p.1 : ℤ) -
          PyNum.trueDiv (PyNum.ofInt ((outgoing_flows.length : ℤ) - 1)) (PyNum.ofInt 2)) *
          PyNum.ofInt Y_GAP
      else y
    (p.2.target_id, next_x, next_y))

/-- The `while q:` traversal of the layout (lines 77–97), with explicit fuel:
`none` models fuel running out (shown never to happen for enough fuel),
`some (Except.error _)` a `KeyError` on `nodes_by_id[node_id]`, and
`some (Except.ok visited)` normal completion. A popped id already in
`visited_coords` is discarded; otherwise it is placed at
`{x, y - h // 2, w, h}` and its children are appended to the queue. -/
def layoutLoop (nodes : List ProcessNode) (flows : List ProcessFlow) :
    Nat → List (String × PyNum × PyNum) → List (String × Coords) →
    Option (Except String (List (String × Coords)))
  | _, [], visited => some (Except.ok visited)
  | 0, _ :: _, _ => none
  | fuel + 1, (nid, x, y) :: rest, visited =>
    if (visited.lookup nid).isSome then
      layoutLoop nodes flows fuel rest visited
    else
      match nodesById nodes nid with
      | none => some (Except.error ("KeyError: " ++ nid))
      | some node =>
        let w := (SIZES node.type).1
        let h := (SIZES node.type).2
        let cy := y - PyNum.ofInt (Int.fdiv h 2)
        layoutLoop nodes flows fuel (rest ++ enqueueChildren node x y flows)
          (visited ++ [(nid, ⟨x, cy, w, h⟩)])

/-- Fuel that the termination theorem shows is always sufficient. -/
def layoutFuel (g : ProcessGraph) : Nat :=
  1 + g.nodes.length * (g.flows.length + 1)

/-- Section 1 of `bpmn_engineer_agent`: find the start node (a missing one
raises `ValueError`, modelled as an error), then run the traversal seeded with
`(start_node_id, X_START, Y_START)` and an empty `visited_coords`. -/
def computeLayout (g : ProcessGraph) : Except String (List (String × Coords)) :=
  match g.nodes.find? (fun n => n.type == NodeType.startEvent) with
  | none => Except.error "Aucun 'startEvent' trouvé dans le graphe."
  | some s =>
    match layoutLoop g.nodes g.flows (layoutFuel g)
        [(s.id, PyNum.ofInt X_START, PyNum.ofInt Y_START)] [] with
    | some r => r
    | none => Except.error "fuel exhausted (provably unreachable)"

/- ===================== XML serialization (xml.sax.saxutils.escape, xml.etree.ElementTree) ===================== -/

/-- `xml.sax.saxutils.escape` on one character: it replaces exactly `&`, `<`
and `>` (`&` first, so the result equals this character-wise map). -/
def saxEscapeChar (c : Char) : List Char :=
  if c = '&' then "&amp;".data
  else if c = '<' then "&lt;".data
  else if c = '>' then "&gt;".data
  else [c]

/-- `xml.sax.saxutils.escape(s)` as the source calls it (no extra entities). -/
def sax_escape (s : String) : String :=
  String.mk (s.data.map saxEscapeChar).flatten

/-- `ElementTree._escape_attrib` on one character: `&`, `<`, `>`, `"`, CR, LF
and TAB are replaced (`&` first, so the sequential replaces equal this map). -/
def escapeAttribChar (c : Char) : List Char :=
  if c = '&' then "&amp;".data
  else if c = '<' then "&lt;".data
  else if c = '>' then "&gt;".data
  else if c = '"' then "&quot;".data
  else if c = '\x0d' then "&#13;".data
  else if c = '\n' then "&#10;".data
  else if c = '\t' then "&#09;".data
  else [c]

/-- The escaping `ElementTree.tostring` applies to every attribute value. -/
def escapeAttrib (s : String) : String :=
  String.mk (s.data.map escapeAttribChar).flatten

/-- One serialized attribute: ` key="escaped value"`. -/
def renderAttr (kv : String × String) : String :=
  " " ++ kv.1 ++ "=\"" ++ escapeAttrib kv.2 ++ "\""

/-- The serialized attribute list, in dict insertion order (Python 3.8+
behaviour, which `ElementTree` follows). -/
def renderAttrs (attrs : List (String × String)) : String :=
  String.join (attrs.map renderAttr)

/-- `ElementTree.tostring` of one element with already-serialized children:
a childless, textless element is written with the short form `<tag ... />`. -/
def renderElem (tag : String) (attrs : List (String × String))
    (children : List String) : String :=
  if children.isEmpty then "<" ++ tag ++ renderAttrs attrs ++ " />"
  else "<" ++ tag ++ renderAttrs attrs ++ ">" ++ String.join children ++ "</" ++ tag ++ ">"

/- ===================== BPMN compiler (bpmn_engineer_agent.py, section 2) ===================== -/

/-- `create_safe_xml_id(prefix)`: the prefix, an underscore, then
`str(uuid.uuid4()).replace('-','')` — the drawn uuid is passed in as `u`. -/
def create_safe_xml_id (pre : String) (u : String) : String :=
  pre ++ "_" ++ u

/-- The BPMN model namespace bound to `bpmn:`. -/
def NS_BPMN : String := "http://www.omg.org/spec/BPMN/20100524/MODEL"

/-- The diagram-interchange namespace bound to `bpmndi:`. -/
def NS_BPMNDI : String := "http://www.omg.org/spec/BPMN/20100524/DI"

/-- The diagram-common namespace bound to `dc:`. -/
def NS_DC : String := "http://www.omg.org/spec/DD/20100524/DC"

/-- The diagram namespace bound to `di:`. -/
def NS_DI : String := "http://www.omg.org/spec/DD/20100524/DI"

/-- The element tag chosen for a node kind (lines 106–109). -/
def nodeTag : NodeType → String
  | NodeType.startEvent => "bpmn:startEvent"
  | NodeType.endEvent => "bpmn:endEvent"
  | NodeType.task => "bpmn:userTask"
  | NodeType.gateway => "bpmn:exclusiveGateway"

/-- A process-model node element: id and `escape`d label as `name`. -/
def nodeElem (node : ProcessNode) : String :=
  renderElem (nodeTag node.type) [("id", node.id), ("name", sax_escape node.label)] []

/-- The `dc:Bounds` child of a shape: `str(int(v))` of x, y, width, height. -/
def boundsElem (c : Coords) : String :=
  renderElem "dc:Bounds"
    [("x", toString c.x.val.trunc), ("y", toString c.y.val.trunc),
     ("width", toString c.width), ("height", toString c.height)] []

/-- A `bpmndi:BPMNShape` element for a placed node. -/
def shapeElem (node : ProcessNode) (c : Coords) : String :=
  renderElem "bpmndi:BPMNShape"
    [("id", node.id ++ "_di"), ("bpmnElement", node.id)] [boundsElem c]

/-- The shapes loop (lines 102–112): for each `visited_coords` entry, a process
node element and a diagram shape element (`nodes_by_id[node_id]` may raise). -/
def buildShapes (nodes : List ProcessNode) :
    List (String × Coords) → Except String (List String × List String)
  | [] => Except.ok ([], [])
  | (nid, c) :: rest =>
    match nodesById nodes nid with
    | none => Except.error ("KeyError: " ++ nid)
    | some node =>
      match buildShapes nodes rest with
      | Except.error e => Except.error e
      | Except.ok (ns, ss) => Except.ok (nodeElem node :: ns, shapeElem node c :: ss)

/-- The waypoint list of one edge (lines 124–131): source right-center, then —
only when the two y values differ numerically (Python `!=` compares int and
float by value) — two bends at `start_x + X_GAP // 2`, then target left-center. -/
def edgeWaypoints (cs ct : Coords) : List (PyNum × PyNum) :=
  let start_x := cs.x + PyNum.ofInt cs.width
  let start_y := cs.y + PyNum.ofInt (Int.fdiv cs.height 2)
  let end_x := ct.x
  let end_y := ct.y + PyNum.ofInt (Int.fdiv ct.height 2)
  [(start_x, start_y)] ++
    (if PyRat.valNe start_y.val end_y.val then
      [(start_x + PyNum.ofInt (Int.fdiv X_GAP 2), start_y),
       (start_x + PyNum.ofInt (Int.fdiv X_GAP 2), end_y)]
    else []) ++
    [(end_x, end_y)]

/-- One `di:waypoint` element, coordinates rendered by `str`. -/
def waypointElem (p : PyNum × PyNum) : String :=
  renderElem "di:waypoint" [("x", p.1.pyStr), ("y", p.2.pyStr)] []

/-- A `bpmndi:BPMNEdge` element with its waypoints. -/
def edgeElem (flowId : String) (cs ct : Coords) : String :=
  renderElem "bpmndi:BPMNEdge" [("id", flowId ++ "_di"), ("bpmnElement", flowId)]
    ((edgeWaypoints cs ct).map waypointElem)

/-- A `bpmn:sequenceFlow` element; the `name` attribute is added only when the
condition is truthy (present and non-empty), escaped. -/
def flowElem (flowId : String) (f : ProcessFlow) : String :=
  renderElem "bpmn:sequenceFlow"
    ([("id", flowId), ("sourceRef", f.source_id), ("targetRef", f.target_id)] ++
      (match f.condition with
       | some c => if c = "" then [] else [("name", sax_escape c)]
       | none => [])) []

/-- The flows loop (lines 115–131): for flow number `k` a fresh id is drawn
(`supply k`), then `visited_coords[flow.source_id]` and
`visited_coords[flow.target_id]` are read (source first — a missing one raises
`KeyError`), producing a sequence-flow element and an edge element. -/
def buildFlows (visited : List (String × Coords)) (supply : Nat → String) :
    List ProcessFlow → Nat → Except String (List String × List String)
  | [], _ => Except.ok ([], [])
  | f :: rest, k =>
    let flowId := create_safe_xml_id "Flow" (supply k)
    match visited.lookup f.source_id, visited.lookup f.target_id with
    | some cs, some ct =>
      match buildFlows visited supply rest (k + 1) with
      | Except.error e => Except.error e
      | Except.ok (fs, es) => Except.ok (flowElem flowId f :: fs, edgeElem flowId cs ct :: es)
    | none, _ => Except.error ("KeyError: " ++ f.source_id)
    | _, none => Except.error ("KeyError: " ++ f.target_id)

/-- The XML declaration the agent prepends. -/
def xmlDecl : String := "<?xml version=\"1.0\" encoding=\"UTF-8\"?>\n"

/-- The `try:` body of `bpmn_engineer_agent` on a typed graph: register the
four namespaces, draw ids for definitions/process/diagram/plane (supply
indices 0–3, in creation order), run the layout, then emit process elements
(nodes then flows) and the diagram plane (shapes then edges); flow ids use
supply indices 4, 5, …. Any internal failure is an `Except.error`. -/
def buildDocument (g : ProcessGraph) (supply : Nat → String) : Except String String :=
  let definitionsId := create_safe_xml_id "Definitions" (supply 0)
  let processId := create_safe_xml_id "Process" (supply 1)
  let diagramId := create_safe_xml_id "BPMNDiagram" (supply 2)
  let planeId := create_safe_xml_id "BPMNPlane" (supply 3)
  match computeLayout g with
  | Except.error e => Except.error e
  | Except.ok visited =>
    match buildShapes g.nodes visited with
    | Except.error e => Except.error e
    | Except.ok (nodeElems, shapeElems) =>
      match buildFlows visited supply g.flows 4 with
      | Except.error e => Except.error e
      | Except.ok (flowElems, edgeElems) =>
        let processElem := renderElem "bpmn:process"
          [("id", processId), ("isExecutable", "false"), ("name", sax_escape g.titre)]
          (nodeElems ++ flowElems)
        let planeElem := renderElem "bpmndi:BPMNPlane"
          [("id", planeId), ("bpmnElement", processId)] (shapeElems ++ edgeElems)
        let diagramElem := renderElem "bpmndi:BPMNDiagram" [("id", diagramId)] [planeElem]
        let rootElem := renderElem "bpmn:definitions"
          [("id", definitionsId), ("targetNamespace", "http://bpmn.io/schema/bpmn"),
           ("xmlns:bpmn", NS_BPMN), ("xmlns:bpmndi", NS_BPMNDI),
           ("xmlns:dc", NS_DC), ("xmlns:di", NS_DI)]
          [processElem, diagramElem]
        Except.ok (xmlDecl ++ rootElem)

/-- `bpmn_engineer_agent(state)`: `bpmn_xml` is `None` unless the structured
graph is present and the validation report's status is `"SUCCESS"`, and `None`
again when the `try:` body raises; otherwise the serialized document. The
uuid4 draws are passed in as `supply`. -/
def bpmn_engineer_agent (structured_sop : Option ProcessGraph)
    (validation_report : Option ValidationReport) (supply : Nat → String) : Option String :=
  match structured_sop with
  | none => none
  | some g =>
    if (validation_report.map ValidationReport.status) ≠ some "SUCCESS" then none
    else
      match buildDocument g supply with
      | Except.ok s => some s
      | Except.error _ => none

/- ===================== Auxiliary notions used by the statements ===================== -/

/-- Whether the character list starts with `p`. -/
def listStartsWith : List Char → List Char → Bool
  | [], _ => true
  | _ :: _, [] => false
  | a :: as, b :: bs => a == b && listStartsWith as bs

/-- Whether `p` occurs contiguously in the character list. -/
def listHasInfix (p : List Char) : List Char → Bool
  | [] => p.isEmpty
  | b :: bs => listStartsWith p (b :: bs) || listHasInfix p bs

/-- Whether `pat` occurs as a contiguous substring of `s`. -/
def strContains (pat s : String) : Bool := listHasInfix pat.data s.data

/-- Reachability along flows, as the layout traversal can follow them: a step
leaves a node that exists in `nodes_by_id` through one of its flows. -/
inductive ReachableFrom (nodes : List ProcessNode) (flows : List ProcessFlow) (start : String) :
    String → Prop
  | refl : ReachableFrom nodes flows start start
  | step {u : String} (f : ProcessFlow) (hu : ReachableFrom nodes flows start u)
      (hnode : (nodesById nodes u).isSome) (hf : f ∈ flows) (hsrc : f.source_id = u) :
      ReachableFrom nodes flows start f.target_id

/-- The ids held in the work queue. -/
def qIds (q : List (String × PyNum × PyNum)) : List String := q.map (fun e => e.1)

/-- The ids placed so far (the keys of `visited_coords`, in insertion order). -/
def placedKeys (m : List (String × Coords)) : List String := m.map Prod.fst

/-- The distinct node ids of a graph. -/
def graphNodeIds (nodes : List ProcessNode) : List String :=
  (nodes.map ProcessNode.id).dedup

/-- How many distinct node ids are not yet placed. -/
def unvisitedCount (nodes : List ProcessNode) (m : List (String × Coords)) : Nat :=
  ((graphNodeIds nodes).filter (fun i => (m.lookup i).isNone)).length

/-- Termination measure of the traversal: placing a node costs its enqueued
children (at most `flows.length` of them) but permanently shrinks the
unplaced-node count, and a discarded duplicate shrinks the queue. -/
def layoutMeasure (nodes : List ProcessNode) (flows : List ProcessFlow)
    (q : List (String × PyNum × PyNum)) (m : List (String × Coords)) : Nat :=
  q.length + unvisitedCount nodes m * (flows.length + 1)

/- ===================== Concrete inputs for the witnesses and counterexamples ===================== -/

/-- A graph holding a gateway node but no flows at all. -/
def exGatewayNoFlows : ProcessGraph :=
  ⟨"T", [⟨"gw", NodeType.gateway, "G"⟩], []⟩

/-- A non-empty graph whose gateway has exactly one outgoing flow. -/
def exGatewayOneOut : ProcessGraph :=
  ⟨"T", [⟨"s", NodeType.startEvent, "S"⟩, ⟨"gw", NodeType.gateway, "G"⟩],
    [⟨"gw", "s", none⟩]⟩

/-- A structurally valid graph: start → end, no gateway. -/
def exOkGraph : ProcessGraph :=
  ⟨"T", [⟨"s", NodeType.startEvent, "S"⟩, ⟨"e", NodeType.endEvent, "E"⟩],
    [⟨"s", "e", none⟩]⟩

/-- A one-node graph (a start event only). -/
def exStartOnly : ProcessGraph :=
  ⟨"T", [⟨"s", NodeType.startEvent, "Go"⟩], []⟩

/-- A start node labelled with markup special characters. -/
def exEscapeGraph : ProcessGraph :=
  ⟨"T", [⟨"s", NodeType.startEvent, "A & B <done>"⟩], []⟩

/-- A graph with a flow to a target id that no node carries, next to an
ordinary flow: `s → x` (dangling) and `s → t`. -/
def exDangling : ProcessGraph :=
  ⟨"T", [⟨"s", NodeType.startEvent, "S"⟩, ⟨"t", NodeType.task, "T"⟩],
    [⟨"s", "x", none⟩, ⟨"s", "t", none⟩]⟩

/-- A cyclic graph with a shared flow target: `s → a → b → a` and `s → b`. -/
def exCyclic : ProcessGraph :=
  ⟨"T", [⟨"s", NodeType.startEvent, "S"⟩, ⟨"a", NodeType.task, "A"⟩,
    ⟨"b", NodeType.task, "B"⟩],
    [⟨"s", "a", none⟩, ⟨"a", "b", none⟩, ⟨"b", "a", none⟩, ⟨"s", "b", none⟩]⟩

/-- A graph whose only flow leaves a node unreachable from the start node. -/
def exUnreachableFlow : ProcessGraph :=
  ⟨"T", [⟨"s", NodeType.startEvent, "S"⟩, ⟨"t", NodeType.task, "T"⟩],
    [⟨"t", "s", none⟩]⟩

/-- A gateway node used to exercise the child-distribution formula. -/
def exGwNode : ProcessNode := ⟨"gw", NodeType.gateway, "D?"⟩

/-- Two conditioned flows out of `exGwNode` (conditions `"Oui"` and `"Non"`). -/
def exGwFlows : List ProcessFlow :=
  [⟨"gw", "A", some "Oui"⟩, ⟨"gw", "B", some "Non"⟩]

/-- A SUCCESS validation report. -/
def rptSuccess : ValidationReport := ⟨"SUCCESS", "ok"⟩

/-- One fixed uuid supply (a run of uuid4 draws). -/
def supplyA : Nat → String := fun _ => "aaaa"

/-- Another fixed uuid supply, differing from `supplyA`. -/
def supplyB : Nat → String := fun _ => "bbbb"

/-- A supply of distinct short ids. -/
def supplyU : Nat → String := fun i => "u" ++ toString i

/-- A supply agreeing with `supplyU` on the first 10 draws only. -/
def supplyV : Nat → String := fun i => if i < 10 then "u" ++ toString i else "other"

/-- The document the compiler emits for `exEscapeGraph` (empty on failure). -/
def escDoc : String :=
  (bpmn_engineer_agent (some exEscapeGraph) (some rptSuccess) supplyU).getD ""

/-- A generator stub failing with a format error on its first 2 calls and
succeeding on the 3rd. -/
def genStub : Nat → Except GenError ProcessGraph :=
  fun i => if i < 2 then Except.error (GenError.formatError "format") else Except.ok exOkGraph

/- ===================== String helper lemmas ===================== -/

theorem strData_append (s t : String) : (s ++ t).data = s.data ++ t.data := by
  cases s; cases t; rfl

theorem str_append_assoc (a b c : String) : a ++ b ++ c = a ++ (b ++ c) := by
  cases a with
  | mk x =>
    cases b with
    | mk y =>
      cases c with
      | mk z =>
        show String.mk (x ++ y ++ z) = String.mk (x ++ (y ++ z))
        rw [List.append_assoc]

theorem listStartsWith_self_append (p t : List Char) :
    listStartsWith p (p ++ t) = true := by
  induction p with
  | nil => simp [listStartsWith]
  | cons a as ih => simp [listStartsWith, ih]

theorem listHasInfix_nil (t : List Char) : listHasInfix [] t = true := by
  cases t <;> simp [listHasInfix, listStartsWith]

theorem listHasInfix_append_left (p x y : List Char) (h : listHasInfix p y = true) :
    listHasInfix p (x ++ y) = true := by
  induction x with
  | nil => simpa using h
  | cons b bs ih => simp [listHasInfix, ih]

theorem listHasInfix_self_append (p t : List Char) :
    listHasInfix p (p ++ t) = true := by
  cases p with
  | nil => exact listHasInfix_nil t
  | cons c cs => simp [listHasInfix, listStartsWith, listStartsWith_self_append]

theorem strContains_decomp (p a b : String) : strContains p (a ++ (p ++ b)) = true := by
  unfold strContains
  rw [strData_append, strData_append]
  exact listHasInfix_append_left _ _ _ (listHasInfix_self_append _ _)

theorem PyNum.add_def (a b : PyNum) : a + b = ⟨a.isFloat || b.isFloat, a.val.add b.val⟩ := rfl

theorem PyNum.sub_def (a b : PyNum) : a - b = ⟨a.isFloat || b.isFloat, a.val.sub b.val⟩ := rfl

theorem PyNum.mul_def (a b : PyNum) : a * b = ⟨a.isFloat || b.isFloat, a.val.mul b.val⟩ := rfl

theorem PyRat.valEq_iff (a b : PyRat) (ha : a.den ≠ 0) (hb : b.den ≠ 0) :
    PyRat.valEq a b = true ↔ a.toRat = b.toRat := by
  have ha' : (a.den : ℚ) ≠ 0 := Int.cast_ne_zero.mpr ha
  have hb' : (b.den : ℚ) ≠ 0 := Int.cast_ne_zero.mpr hb
  simp only [PyRat.valEq, beq_iff_eq, PyRat.toRat]
  rw [div_eq_div_iff ha' hb']
  constructor
  · intro h
    exact_mod_cast h
  · intro h
    exact_mod_cast h

theorem enumFrom_getElem? {α : Type} (l : List α) :
    ∀ (j i : Nat), (enumFrom j l)[i]? = l[i]?.map (fun a => (j + i, a)) := by
  induction l with
  | nil => intro j i; simp [enumFrom]
  | cons a as ih =>
    intro j i
    cases i with
    | zero => simp [enumFrom]
    | succ i' =>
      have h : j + 1 + i' = j + (i' + 1) := by omega
      simp [enumFrom, ih (j + 1) i', h]

theorem length_insertSorted (key : ProcessFlow → String) (f : ProcessFlow)
    (l : List ProcessFlow) : (insertSorted key f l).length = l.length + 1 := by
  induction l with
  | nil => simp [insertSorted]
  | cons g gs ih =>
    simp only [insertSorted]
    split <;> simp [ih]

theorem length_pySortByKey (key : ProcessFlow → String) (l : List ProcessFlow) :
    (pySortByKey key l).length = l.length := by
  induction l with
  | nil => rfl
  | cons f fs ih => simp [pySortByKey, length_insertSorted, ih]

theorem mem_insertSorted (key : ProcessFlow → String) (f x : ProcessFlow)
    (l : List ProcessFlow) : x ∈ insertSorted key f l ↔ x = f ∨ x ∈ l := by
  induction l with
  | nil => simp [insertSorted]
  | cons g gs ih =>
    simp only [insertSorted]
    split
    all_goals simp only [List.mem_cons, ih]
    all_goals try tauto

theorem mem_pySortByKey (key : ProcessFlow → String) (x : ProcessFlow)
    (l : List ProcessFlow) : x ∈ pySortByKey key l ↔ x ∈ l := by
  induction l with
  | nil => simp [pySortByKey]
  | cons f fs ih => simp [pySortByKey, mem_insertSorted, ih]

theorem enumFrom_map_snd {α β : Type} (g : α → β) :
    ∀ (j : Nat) (l : List α), (enumFrom j l).map (fun p => g p.2) = l.map g := by
  intro j l
  induction l generalizing j with
  | nil => rfl
  | cons a as ih => simp [enumFrom, ih]

theorem enqueueChildren_qIds (node : ProcessNode) (x y : PyNum) (flows : List ProcessFlow) :
    qIds (enqueueChildren node x y flows) =
      (sortedOutgoing flows node.id).map ProcessFlow.target_id := by
  simp only [enqueueChildren, qIds, sortedOutgoing, List.map_map]
  exact enumFrom_map_snd ProcessFlow.target_id 0 _

theorem mem_sortedOutgoing (flows : List ProcessFlow) (nid : String) (f : ProcessFlow) :
    f ∈ sortedOutgoing flows nid ↔ f ∈ flows ∧ f.source_id = nid := by
  unfold sortedOutgoing
  rw [mem_pySortByKey, List.mem_filter]
  simp

/- ===================== C2: the gateway invariant of the structural validator ===================== -/

theorem findGatewayViolation_finds (flows : List ProcessFlow) :
    ∀ (nodes : List ProcessNode) (n : ProcessNode), n ∈ nodes → n.type = NodeType.gateway →
      outgoingCount flows n.id < 2 →
      ∃ m, m ∈ nodes ∧ m.type = NodeType.gateway ∧ outgoingCount flows m.id < 2 ∧
        findGatewayViolation flows nodes = some (m, outgoingCount flows m.id) := by
  intro nodes
  induction nodes with
  | nil => intro n h; cases h
  | cons n0 rest ih =>
    intro n hmem hgw hlt
    by_cases h0 : n0.type = NodeType.gateway
    · by_cases hk : outgoingCount flows n0.id < 2
      · exact ⟨n0, List.mem_cons_self _ _, h0, hk, by simp [findGatewayViolation, h0, hk]⟩
      · rcases List.mem_cons.mp hmem with rfl | hmem'
        · exact absurd hlt hk
        · obtain ⟨m, hm, hgw', hlt', heq⟩ := ih n hmem' hgw hlt
          exact ⟨m, List.mem_cons_of_mem _ hm, hgw', hlt',
            by simp [findGatewayViolation, h0, hk, heq]⟩
    · rcases List.mem_cons.mp hmem with rfl | hmem'
      · exact absurd hgw h0
      · obtain ⟨m, hm, hgw', hlt', heq⟩ := ih n hmem' hgw hlt
        exact ⟨m, List.mem_cons_of_mem _ hm, hgw', hlt',
          by simp [findGatewayViolation, h0, heq]⟩

theorem gatewayReason_id_decomp (m : ProcessNode) (k : Nat) :
    gatewayReason m k =
      ("ERREUR LOGIQUE : La passerelle de décision '" ++ m.label ++ "' (ID: ") ++
      (m.id ++ (") est invalide. Elle doit avoir au moins 2 sorties, mais n'en a que " ++
        (toString k ++ "."))) := by
  simp [gatewayReason, str_append_assoc]

theorem gatewayReason_count_decomp (m : ProcessNode) (k : Nat) :
    gatewayReason m k =
      ("ERREUR LOGIQUE : La passerelle de décision '" ++ m.label ++ "' (ID: " ++ m.id ++
        ") est invalide. Elle doit avoir au moins 2 sorties, mais n'en a que ") ++
      (toString k ++ ".") := by
  simp [gatewayReason, str_append_assoc]

/-- C2, corrected. For every graph with non-empty nodes and flows that contains
a gateway node with fewer than 2 outgoing flows, `validate_graph_with_code`
returns a rejection whose reason names the id of a violating gateway (the
first one in node order) and reports the number of outgoing flows it found. -/
theorem c2_gateway_rejection (g : ProcessGraph) (n : ProcessNode)
    (hn : g.nodes ≠ []) (hf : g.flows ≠ [])
    (hmem : n ∈ g.nodes) (hgw : n.type = NodeType.gateway)
    (hlt : outgoingCount g.flows n.id < 2) :
    ∃ m, m ∈ g.nodes ∧ m.type = NodeType.gateway ∧ outgoingCount g.flows m.id < 2 ∧
      validate_graph_with_code g = (false, gatewayReason m (outgoingCount g.flows m.id)) ∧
      strContains m.id (validate_graph_with_code g).2 = true ∧
      strContains (toString (outgoingCount g.flows m.id)) (validate_graph_with_code g).2 = true := by
  obtain ⟨m, hm, hgw', hlt', heq⟩ := findGatewayViolation_finds g.flows g.nodes n hmem hgw hlt
  have hval : validate_graph_with_code g =
      (false, gatewayReason m (outgoingCount g.flows m.id)) := by
    unfold validate_graph_with_code
    rw [heq]
    simp [List.isEmpty_iff, hn, hf]
  refine ⟨m, hm, hgw', hlt', hval, ?_, ?_⟩
  · rw [hval, gatewayReason_id_decomp]
    exact strContains_decomp _ _ _
  · rw [hval, gatewayReason_count_decomp]
    exact strContains_decomp _ _ _

/-- C2, counterexample to the claim as stated: `exGatewayNoFlows` contains a
gateway (`"gw"`) with 0 outgoing flows, yet the validator's rejection reason
is the empty-graph message, which does not name that node's id. -/
theorem c2_counterexample :
    (∃ n, n ∈ exGatewayNoFlows.nodes ∧ n.type = NodeType.gateway ∧
      outgoingCount exGatewayNoFlows.flows n.id < 2) ∧
    (validate_graph_with_code exGatewayNoFlows).1 = false ∧
    strContains "gw" (validate_graph_with_code exGatewayNoFlows).2 = false := by
  exact ⟨⟨⟨"gw", NodeType.gateway, "G"⟩, by decide, rfl, by decide⟩, by decide, by decide⟩

/-- Witness for `c2_gateway_rejection` at the concrete graph `exGatewayOneOut`. -/
theorem c2_witness :
    (exGatewayOneOut.nodes ≠ [] ∧ exGatewayOneOut.flows ≠ [] ∧
      (⟨"gw", NodeType.gateway, "G"⟩ : ProcessNode) ∈ exGatewayOneOut.nodes ∧
      outgoingCount exGatewayOneOut.flows "gw" < 2) ∧
    (∃ m, m ∈ exGatewayOneOut.nodes ∧ m.type = NodeType.gateway ∧
      outgoingCount exGatewayOneOut.flows m.id < 2 ∧
      validate_graph_with_code exGatewayOneOut =
        (false, gatewayReason m (outgoingCount exGatewayOneOut.flows m.id)) ∧
      strContains m.id (validate_graph_with_code exGatewayOneOut).2 = true ∧
      strContains (toString (outgoingCount exGatewayOneOut.flows m.id))
        (validate_graph_with_code exGatewayOneOut).2 = true) :=
  ⟨⟨by decide, by decide, by decide, by decide⟩,
    c2_gateway_rejection exGatewayOneOut ⟨"gw", NodeType.gateway, "G"⟩
      (by decide) (by decide) (by decide) rfl (by decide)⟩

/- ===================== C3: is a FAILURE report terminal? ===================== -/

/-- C3, counterexample to the claim as stated: with a missing structured graph
the validator emits a report with status FAILURE and `next_action =
"structure_sop"`, which the router sends back to the Structure stage, not to
the terminal END. -/
theorem c3_counterexample :
    (intelligent_validator_agent none (AuditOutcome.ok ⟨true, "looks fine"⟩)).validation_report.status
      = "FAILURE" ∧
    (intelligent_validator_agent none (AuditOutcome.ok ⟨true, "looks fine"⟩)).next_action
      = "structure_sop" ∧
    route_based_on_next_action
      (some (intelligent_validator_agent none (AuditOutcome.ok ⟨true, "looks fine"⟩)).next_action)
      = "structure_sop" ∧
    "structure_sop" ≠ LANGGRAPH_END := by
  refine ⟨rfl, rfl, rfl, by decide⟩

/-- C3, corrected. A FAILURE report produced by the auditor-exhaustion path is
terminal: the agent returns `next_action = "end_with_error"` and the router
maps it to END (whereas the FAILURE produced by the missing/invalid-graph
check routes back to the Structure stage, per the counterexample). -/
theorem c3_failure_routing (g : ProcessGraph) (e : String)
    (hok : (validate_graph_with_code g).1 = true) :
    (intelligent_validator_agent (some g) (AuditOutcome.failed e)).validation_report.status
      = "FAILURE" ∧
    (intelligent_validator_agent (some g) (AuditOutcome.failed e)).next_action
      = "end_with_error" ∧
    route_based_on_next_action
      (some (intelligent_validator_agent (some g) (AuditOutcome.failed e)).next_action)
      = LANGGRAPH_END := by
  have h : intelligent_validator_agent (some g) (AuditOutcome.failed e) =
      ⟨⟨"FAILURE", auditFailureReason e⟩, none, "end_with_error"⟩ := by
    simp [intelligent_validator_agent, hok]
  rw [h]
  exact ⟨rfl, rfl, rfl⟩

/-- Witness for `c3_failure_routing` at the concrete graph `exOkGraph`. -/
theorem c3_witness :
    (validate_graph_with_code exOkGraph).1 = true ∧
    ((intelligent_validator_agent (some exOkGraph) (AuditOutcome.failed "boom")).validation_report.status
        = "FAILURE" ∧
      (intelligent_validator_agent (some exOkGraph) (AuditOutcome.failed "boom")).next_action
        = "end_with_error" ∧
      route_based_on_next_action
        (some (intelligent_validator_agent (some exOkGraph) (AuditOutcome.failed "boom")).next_action)
        = LANGGRAPH_END) :=
  ⟨by decide, c3_failure_routing exOkGraph "boom" (by decide)⟩

/- ===================== C4: structural check precedes and short-circuits the auditor ===================== -/

/-- C4, confirmed. When the structural (code) validator rejects a present
graph, the validator agent returns a REJECTED report carrying the structural
reason as correction feedback, routes to the Structure stage, and its output
does not depend on the semantic auditor's outcome (the auditor is not
consulted). -/
theorem c4_structural_short_circuit (g : ProcessGraph) (r : String) (a1 a2 : AuditOutcome)
    (hfail : validate_graph_with_code g = (false, r)) :
    intelligent_validator_agent (some g) a1 =
      ⟨⟨"REJECTED", r⟩, some (some r), "structure_sop"⟩ ∧
    intelligent_validator_agent (some g) a1 = intelligent_validator_agent (some g) a2 ∧
    route_based_on_next_action (some (intelligent_validator_agent (some g) a1).next_action)
      = "structure_sop" := by
  have h : ∀ a, intelligent_validator_agent (some g) a =
      ⟨⟨"REJECTED", r⟩, some (some r), "structure_sop"⟩ := by
    intro a
    simp [intelligent_validator_agent, hfail]
  refine ⟨h a1, (h a1).trans (h a2).symm, ?_⟩
  rw [h a1]
  rfl

/-- Witness for `c4_structural_short_circuit` at the concrete graph
`exGatewayOneOut` and two distinct audit outcomes. -/
theorem c4_witness :
    validate_graph_with_code exGatewayOneOut =
      (false, gatewayReason ⟨"gw", NodeType.gateway, "G"⟩ 1) ∧
    (intelligent_validator_agent (some exGatewayOneOut) (AuditOutcome.ok ⟨true, "fine"⟩) =
        ⟨⟨"REJECTED", gatewayReason ⟨"gw", NodeType.gateway, "G"⟩ 1⟩,
          some (some (gatewayReason ⟨"gw", NodeType.gateway, "G"⟩ 1)), "structure_sop"⟩ ∧
      intelligent_validator_agent (some exGatewayOneOut) (AuditOutcome.ok ⟨true, "fine"⟩) =
        intelligent_validator_agent (some exGatewayOneOut) (AuditOutcome.failed "down") ∧
      route_based_on_next_action
        (some (intelligent_validator_agent (some exGatewayOneOut)
          (AuditOutcome.ok ⟨true, "fine"⟩)).next_action) = "structure_sop") :=
  ⟨by decide,
    c4_structural_short_circuit exGatewayOneOut _ (AuditOutcome.ok ⟨true, "fine"⟩)
      (AuditOutcome.failed "down") (by decide)⟩

/- ===================== C5: the retry bound of the structuring stage ===================== -/

/-- C5, confirmed. If the generator raises a format error
(`InvalidProcessGraphError`) on its first 2 invocations and succeeds on the
3rd, the retry-wrapped generation makes exactly 3 invocations, and — whenever
the stage's guard passes, i.e. the incoming description is present and
non-empty — the structuring agent proceeds to the Validate stage with the
valid graph; and any schema-valid result — whatever a later semantic audit
would say — ends the retry loop at once (1 invocation), so a
well-formed-but-semantically-rejected result never triggers this retry.
(With a missing or empty description the agent returns end_with_error without
invoking the generator at all, and an uncaught RuntimeError after exhaustion
propagates out of the agent rather than returning cleanly; both facts are part
of the agent definition and are exercised by the witness.) -/
theorem c5_retry_bound (gen : Nat → Except GenError ProcessGraph) (e0 e1 : String)
    (g : ProcessGraph)
    (h0 : gen 0 = Except.error (GenError.formatError e0))
    (h1 : gen 1 = Except.error (GenError.formatError e1))
    (h2 : gen 2 = Except.ok g) :
    generate_and_validate_process_graph gen = (3, Except.ok g) ∧
    (∀ t : String, t ≠ "" →
      sop_structure_agent (some t) gen = Except.ok ⟨some g, some none, "validate_sop"⟩) ∧
    (∀ (gen2 : Nat → Except GenError ProcessGraph) (g2 : ProcessGraph),
      gen2 0 = Except.ok g2 → generate_and_validate_process_graph gen2 = (1, Except.ok g2)) := by
  have hmain : generate_and_validate_process_graph gen = (3, Except.ok g) := by
    unfold generate_and_validate_process_graph
    simp [retryCall, h0, h1, h2]
  refine ⟨hmain, ?_, ?_⟩
  · intro t ht
    simp [sop_structure_agent, ht, hmain]
  · intro gen2 g2 hok
    unfold generate_and_validate_process_graph
    simp [retryCall, hok]

/-- Witness for `c5_retry_bound` at the concrete stub `genStub`, with the
non-empty-description conjunct instantiated at "desc"; the empty-string and
missing-description guard and the RuntimeError propagation are checked
directly on the agent definition. -/
theorem c5_witness :
    (genStub 0 = Except.error (GenError.formatError "format") ∧
      genStub 1 = Except.error (GenError.formatError "format") ∧
      genStub 2 = Except.ok exOkGraph) ∧
    (generate_and_validate_process_graph genStub = (3, Except.ok exOkGraph) ∧
      (∀ t : String, t ≠ "" →
        sop_structure_agent (some t) genStub =
          Except.ok ⟨some exOkGraph, some none, "validate_sop"⟩) ∧
      (∀ (gen2 : Nat → Except GenError ProcessGraph) (g2 : ProcessGraph),
        gen2 0 = Except.ok g2 → generate_and_validate_process_graph gen2 = (1, Except.ok g2))) ∧
    sop_structure_agent (some "") genStub = Except.ok ⟨none, none, "end_with_error"⟩ ∧
    sop_structure_agent none genStub = Except.ok ⟨none, none, "end_with_error"⟩ ∧
    sop_structure_agent (some "desc")
        (fun _ => Except.error (GenError.callError "Together API error")) =
      Except.error "Together API error" :=
  ⟨⟨rfl, rfl, rfl⟩, c5_retry_bound genStub "format" "format" exOkGraph rfl rfl rfl,
    rfl, rfl, rfl⟩

/- ===================== C6: vertical distribution of gateway children ===================== -/

theorem enqueueChildren_getElem (node : ProcessNode) (x y : PyNum)
    (flows : List ProcessFlow) (i : Nat) (f : ProcessFlow)
    (hf : (sortedOutgoing flows node.id)[i]? = some f) :
    (enqueueChildren node x y flows)[i]? = some (f.target_id,
      x + PyNum.ofInt (SIZES node.type).1 + PyNum.ofInt X_GAP,
      if node.type = NodeType.gateway then
        y + (PyNum.ofInt (i : ℤ) -
          PyNum.trueDiv
            (PyNum.ofInt (((flows.filter (fun fl => fl.source_id == node.id)).length : ℤ) - 1))
            (PyNum.ofInt 2)) * PyNum.ofInt Y_GAP
      else y) := by
  unfold sortedOutgoing at hf
  simp only [enqueueChildren, List.getElem?_map, enumFrom_getElem?, hf, Nat.zero_add]
  rfl

/-- C6, confirmed. During layout, the `i`-th child (in sorted flow order) of a
placed gateway at `(x, y)` is enqueued at `x + width + X_GAP` horizontally and
`y + (i - (k - 1)/2) * Y_GAP` vertically (a float, `k` the outgoing count),
children of non-gateway nodes are enqueued at the parent's own `y`, and for a
gateway whose sorted outgoing flows are exactly two conditioned branches the
two enqueued y-coordinates are symmetric about the gateway's `y` and `Y_GAP`
apart. -/
theorem c6_child_positions :
    (∀ (node : ProcessNode) (x y : PyNum) (flows : List ProcessFlow) (i : Nat)
      (f : ProcessFlow),
      node.type = NodeType.gateway →
      (sortedOutgoing flows node.id)[i]? = some f →
      ∃ ny : PyNum,
        (enqueueChildren node x y flows)[i]? = some (f.target_id,
          x + PyNum.ofInt (SIZES node.type).1 + PyNum.ofInt X_GAP, ny) ∧
        ny.isFloat = true ∧
        (y.val.den ≠ 0 → ny.qVal = y.qVal +
          ((i : ℚ) - (((sortedOutgoing flows node.id).length : ℚ) - 1) / 2) * ((Y_GAP : ℤ) : ℚ))) ∧
    (∀ (node : ProcessNode) (x y : PyNum) (flows : List ProcessFlow) (i : Nat)
      (f : ProcessFlow),
      node.type ≠ NodeType.gateway →
      (sortedOutgoing flows node.id)[i]? = some f →
      (enqueueChildren node x y flows)[i]? = some (f.target_id,
        x + PyNum.ofInt (SIZES node.type).1 + PyNum.ofInt X_GAP, y)) ∧
    (∀ (node : ProcessNode) (x y : PyNum) (flows : List ProcessFlow) (f0 f1 : ProcessFlow),
      node.type = NodeType.gateway →
      sortedOutgoing flows node.id = [f0, f1] →
      ∃ (nX y0 y1 : PyNum),
        enqueueChildren node x y flows = [(f0.target_id, nX, y0), (f1.target_id, nX, y1)] ∧
        (y.val.den ≠ 0 →
          y0.qVal + y1.qVal = 2 * y.qVal ∧ y1.qVal - y0.qVal = ((Y_GAP : ℤ) : ℚ))) := by
  refine ⟨?_, ?_, ?_⟩
  · intro node x y flows i f hgw hf
    have h := enqueueChildren_getElem node x y flows i f hf
    rw [if_pos hgw] at h
    refine ⟨_, h, ?_, ?_⟩
    · simp [PyNum.add_def, PyNum.sub_def, PyNum.mul_def, PyNum.trueDiv, PyNum.ofInt]
    · intro hy
      have hy' : ((y.val.den : ℚ)) ≠ 0 := Int.cast_ne_zero.mpr hy
      have hLL : ((flows.filter (fun fl => fl.source_id == node.id)).length : ℚ) =
          ((sortedOutgoing flows node.id).length : ℚ) := by
        unfold sortedOutgoing
        rw [length_pySortByKey]
      simp only [PyNum.qVal, PyNum.add_def, PyNum.sub_def, PyNum.mul_def, PyNum.trueDiv,
        PyNum.ofInt, PyRat.add, PyRat.sub, PyRat.mul, PyRat.div, PyRat.ofInt, PyRat.toRat]
      rw [← hLL]
      push_cast
      field_simp
      try ring
  · intro node x y flows i f hgw hf
    rw [enqueueChildren_getElem node x y flows i f hf, if_neg hgw]
  · intro node x y flows f0 f1 hgw hsort
    have hL : (flows.filter (fun fl => fl.source_id == node.id)).length = 2 := by
      have h2 := length_pySortByKey pyCondKey (flows.filter (fun fl => fl.source_id == node.id))
      rw [show pySortByKey pyCondKey (flows.filter (fun fl => fl.source_id == node.id)) =
        sortedOutgoing flows node.id from rfl, hsort] at h2
      exact h2.symm
    have h0 := enqueueChildren_getElem node x y flows 0 f0 (by rw [hsort]; rfl)
    have h1 := enqueueChildren_getElem node x y flows 1 f1 (by rw [hsort]; rfl)
    rw [if_pos hgw, hL] at h0 h1
    have hlen2 : (enqueueChildren node x y flows).length = 2 := by
      have h := congrArg List.length (enqueueChildren_qIds node x y flows)
      simp only [qIds, List.length_map] at h
      rw [h, hsort]
      rfl
    obtain ⟨a, b, hab⟩ := List.length_eq_two.mp hlen2
    rw [hab] at h0 h1
    simp only [List.getElem?_cons_zero, List.getElem?_cons_succ, Option.some.injEq] at h0 h1
    subst h0
    subst h1
    refine ⟨_, _, _, hab, ?_⟩
    intro hy
    have hy' : ((y.val.den : ℚ)) ≠ 0 := Int.cast_ne_zero.mpr hy
    constructor
    · simp only [PyNum.qVal, PyNum.add_def, PyNum.sub_def, PyNum.mul_def, PyNum.trueDiv,
        PyNum.ofInt, PyRat.add, PyRat.sub, PyRat.mul, PyRat.div, PyRat.ofInt, PyRat.toRat]
      push_cast
      field_simp
      try ring
    · simp only [PyNum.qVal, PyNum.add_def, PyNum.sub_def, PyNum.mul_def, PyNum.trueDiv,
        PyNum.ofInt, PyRat.add, PyRat.sub, PyRat.mul, PyRat.div, PyRat.ofInt, PyRat.toRat]
      push_cast
      field_simp
      try ring

/- ===================== Lookup and key lemmas for the layout traversal ===================== -/

theorem lookup_isSome_iff_mem (m : List (String × Coords)) (i : String) :
    (List.lookup i m).isSome = true ↔ i ∈ placedKeys m := by
  induction m with
  | nil => simp [placedKeys]
  | cons e es ih =>
    obtain ⟨k, v⟩ := e
    by_cases h : i = k
    · subst h
      simp [List.lookup, placedKeys]
    · have hbeq : (i == k) = false := by simp [h]
      simp [List.lookup, hbeq, placedKeys, h, ih]

theorem lookup_eq_none_of_not_mem (m : List (String × Coords)) (i : String)
    (h : i ∉ placedKeys m) : List.lookup i m = none := by
  rcases ho : List.lookup i m with _ | v
  · rfl
  · exact absurd ((lookup_isSome_iff_mem m i).mp (by simp [ho])) h

theorem not_mem_of_lookup_not_isSome (m : List (String × Coords)) (i : String)
    (h : ¬ (List.lookup i m).isSome = true) : i ∉ placedKeys m :=
  fun hmem => h ((lookup_isSome_iff_mem m i).mpr hmem)

theorem lookup_append_of_isSome (m l : List (String × Coords)) (i : String)
    (h : (List.lookup i m).isSome = true) :
    List.lookup i (m ++ l) = List.lookup i m := by
  induction m with
  | nil => simp at h
  | cons e es ih =>
    obtain ⟨k, v⟩ := e
    by_cases hk : (i == k) = true
    · simp [List.lookup, hk]
    · have hkf : (i == k) = false := by simpa using hk
      simp only [List.cons_append, List.lookup, hkf] at h ⊢
      exact ih h

theorem lookup_append_of_none (m l : List (String × Coords)) (i : String)
    (h : List.lookup i m = none) :
    List.lookup i (m ++ l) = List.lookup i l := by
  induction m with
  | nil => simp
  | cons e es ih =>
    obtain ⟨k, v⟩ := e
    by_cases hk : (i == k) = true
    · simp [List.lookup, hk] at h
    · have hkf : (i == k) = false := by simpa using hk
      simp only [List.cons_append, List.lookup, hkf] at h ⊢
      exact ih h

theorem placedKeys_append (m l : List (String × Coords)) :
    placedKeys (m ++ l) = placedKeys m ++ placedKeys l := by
  simp [placedKeys]

theorem filter_length_flip (a : String) (p q : String → Bool)
    (hpa : p a = true) (hqa : q a = false) :
    ∀ (L : List String), L.Nodup → a ∈ L → (∀ i ∈ L, i ≠ a → q i = p i) →
      (L.filter q).length + 1 = (L.filter p).length := by
  intro L
  induction L with
  | nil => intro _ ha; cases ha
  | cons b bs ih =>
    intro hnd ha hoth
    have hbs_nd : bs.Nodup := (List.nodup_cons.mp hnd).2
    rcases List.mem_cons.mp ha with rfl | ha'
    · have hnotin : a ∉ bs := (List.nodup_cons.mp hnd).1
      have hsame : bs.filter q = bs.filter p := by
        apply List.filter_congr
        intro i hi
        exact hoth i (List.mem_cons_of_mem _ hi) (fun hia => hnotin (hia ▸ hi))
      rw [List.filter_cons, List.filter_cons, hpa, hqa, hsame]
      simp
    · have hb_ne : b ≠ a := fun hba => (List.nodup_cons.mp hnd).1 (hba ▸ ha')
      have hqb : q b = p b := hoth b (List.mem_cons_self _ _) hb_ne
      have hrec := ih hbs_nd ha' (fun i hi => hoth i (List.mem_cons_of_mem _ hi))
      rw [List.filter_cons, List.filter_cons, hqb]
      cases hpb : p b with
      | false => simpa using hrec
      | true =>
        simp only [if_true, List.length_cons]
        omega

theorem mem_graphNodeIds (nodes : List ProcessNode) (i : String) :
    i ∈ graphNodeIds nodes ↔ ∃ n ∈ nodes, n.id = i := by
  simp [graphNodeIds, List.mem_dedup, List.mem_map]

theorem unvisitedCount_place (nodes : List ProcessNode) (m : List (String × Coords))
    (nid : String) (c : Coords) (hmem : nid ∈ graphNodeIds nodes)
    (hnone : List.lookup nid m = none) :
    unvisitedCount nodes (m ++ [(nid, c)]) + 1 = unvisitedCount nodes m := by
  unfold unvisitedCount
  apply filter_length_flip nid
  · simp [hnone]
  · rw [lookup_append_of_none m _ nid hnone]
    simp [List.lookup]
  · exact List.nodup_dedup _
  · exact hmem
  · intro i _ hia
    rcases ho : List.lookup i m with _ | v
    · rw [lookup_append_of_none m _ i ho]
      have : (i == nid) = false := by simp [hia]
      simp [List.lookup, this, ho]
    · rw [lookup_append_of_isSome m _ i (by simp [ho]), ho]

theorem unvisitedCount_le (nodes : List ProcessNode) (m : List (String × Coords)) :
    unvisitedCount nodes m ≤ nodes.length := by
  calc unvisitedCount nodes m ≤ (graphNodeIds nodes).length := List.length_filter_le _ _
    _ ≤ (nodes.map ProcessNode.id).length := (List.dedup_sublist _).length_le
    _ = nodes.length := List.length_map _ _

theorem nodesById_isSome_iff (nodes : List ProcessNode) (nid : String) :
    (nodesById nodes nid).isSome = true ↔ ∃ n ∈ nodes, n.id = nid := by
  unfold nodesById
  rw [List.find?_isSome]
  simp

theorem nodesById_some_spec (nodes : List ProcessNode) (nid : String) (node : ProcessNode)
    (h : nodesById nodes nid = some node) : node ∈ nodes ∧ node.id = nid := by
  unfold nodesById at h
  refine ⟨List.mem_reverse.mp (List.mem_of_find?_eq_some h), ?_⟩
  have := List.find?_some h
  simpa using this

theorem qIds_cons (nid : String) (x y : PyNum) (rest : List (String × PyNum × PyNum)) :
    qIds ((nid, x, y) :: rest) = nid :: qIds rest := rfl

theorem qIds_append (q1 q2 : List (String × PyNum × PyNum)) :
    qIds (q1 ++ q2) = qIds q1 ++ qIds q2 := by
  simp [qIds]

theorem layoutLoop_done (nodes : List ProcessNode) (flows : List ProcessFlow)
    (fuel : Nat) (visited : List (String × Coords)) :
    layoutLoop nodes flows fuel [] visited = some (Except.ok visited) := by
  cases fuel <;> rfl

theorem reach_subset_closed (nodes : List ProcessNode) (flows : List ProcessFlow)
    (start : String) (visited : List (String × Coords))
    (hstart : start ∈ placedKeys visited)
    (hclosed : ∀ u ∈ placedKeys visited, ∀ f ∈ flows, f.source_id = u →
      f.target_id ∈ placedKeys visited) :
    ∀ id, ReachableFrom nodes flows start id → id ∈ placedKeys visited := by
  intro id hid
  induction hid with
  | refl => exact hstart
  | step f hu hnode hf hsrc ih => exact hclosed _ ih f hf hsrc

theorem layoutLoop_finished (nodes : List ProcessNode) (flows : List ProcessFlow)
    (start : String) (fuel : Nat) (visited : List (String × Coords))
    (hnd : (placedKeys visited).Nodup)
    (hvr : ∀ id ∈ placedKeys visited, ReachableFrom nodes flows start id)
    (hstart : start ∈ placedKeys visited)
    (hclosed : ∀ u ∈ placedKeys visited, ∀ f ∈ flows, f.source_id = u →
      f.target_id ∈ placedKeys visited) :
    ∃ m, layoutLoop nodes flows fuel [] visited = some (Except.ok m) ∧
      (∃ tail, m = visited ++ tail) ∧ (placedKeys m).Nodup ∧
      (∀ id ∈ placedKeys m, ReachableFrom nodes flows start id) ∧
      (∀ id, ReachableFrom nodes flows start id → id ∈ placedKeys m) :=
  ⟨visited, layoutLoop_done nodes flows fuel visited, ⟨[], (List.append_nil _).symm⟩, hnd, hvr,
    reach_subset_closed nodes flows start visited hstart hclosed⟩

theorem layoutLoop_correct (nodes : List ProcessNode) (flows : List ProcessFlow)
    (start : String)
    (hrefs : ∀ f ∈ flows, ∃ n ∈ nodes, n.id = f.target_id) :
    ∀ (fuel : Nat) (q : List (String × PyNum × PyNum)) (visited : List (String × Coords)),
      layoutMeasure nodes flows q visited ≤ fuel →
      (placedKeys visited).Nodup →
      (∀ id ∈ placedKeys visited, ReachableFrom nodes flows start id) →
      (∀ id ∈ qIds q, ReachableFrom nodes flows start id) →
      (∀ id ∈ qIds q, ∃ n ∈ nodes, n.id = id) →
      (start ∈ placedKeys visited ∨ start ∈ qIds q) →
      (∀ u ∈ placedKeys visited, ∀ f ∈ flows, f.source_id = u →
        f.target_id ∈ placedKeys visited ∨ f.target_id ∈ qIds q) →
      ∃ m, layoutLoop nodes flows fuel q visited = some (Except.ok m) ∧
        (∃ tail, m = visited ++ tail) ∧
        (placedKeys m).Nodup ∧
        (∀ id ∈ placedKeys m, ReachableFrom nodes flows start id) ∧
        (∀ id, ReachableFrom nodes flows start id → id ∈ placedKeys m) := by
  intro fuel
  induction fuel with
  | zero =>
    intro q visited hM hnd hvr hqr hqn hstart hclosed
    cases q with
    | nil =>
      have hstart' : start ∈ placedKeys visited := by
        rcases hstart with h | h
        · exact h
        · simp [qIds] at h
      exact layoutLoop_finished nodes flows start 0 visited hnd hvr hstart'
        (fun u hu f hf hs => (hclosed u hu f hf hs).resolve_right (by simp [qIds]))
    | cons e rest =>
      exfalso
      simp only [layoutMeasure, List.length_cons] at hM
      omega
  | succ fuel ih =>
    intro q visited hM hnd hvr hqr hqn hstart hclosed
    cases q with
    | nil =>
      have hstart' : start ∈ placedKeys visited := by
        rcases hstart with h | h
        · exact h
        · simp [qIds] at h
      exact layoutLoop_finished nodes flows start (fuel + 1) visited hnd hvr hstart'
        (fun u hu f hf hs => (hclosed u hu f hf hs).resolve_right (by simp [qIds]))
    | cons e rest =>
      obtain ⟨nid, x, y⟩ := e
      by_cases hvis : (List.lookup nid visited).isSome = true
      · -- the popped id is already placed: discard it
        have hstep : layoutLoop nodes flows (fuel + 1) ((nid, x, y) :: rest) visited =
            layoutLoop nodes flows fuel rest visited := by
          simp [layoutLoop, hvis]
        rw [hstep]
        apply ih rest visited
        · simp only [layoutMeasure, List.length_cons] at hM ⊢
          omega
        · exact hnd
        · exact hvr
        · intro id hid
          exact hqr id (by rw [qIds_cons]; exact List.mem_cons_of_mem _ hid)
        · intro id hid
          exact hqn id (by rw [qIds_cons]; exact List.mem_cons_of_mem _ hid)
        · rcases hstart with h | h
          · exact Or.inl h
          · rw [qIds_cons] at h
            rcases List.mem_cons.mp h with rfl | h'
            · exact Or.inl ((lookup_isSome_iff_mem visited start).mp hvis)
            · exact Or.inr h'
        · intro u hu f hf hsrc
          rcases hclosed u hu f hf hsrc with h | h
          · exact Or.inl h
          · rw [qIds_cons] at h
            rcases List.mem_cons.mp h with heq | h'
            · exact Or.inl (heq ▸ (lookup_isSome_iff_mem visited nid).mp hvis)
            · exact Or.inr h'
      · -- the popped id is new: place it and enqueue its children
        have hnid_q : nid ∈ qIds ((nid, x, y) :: rest) := by
          rw [qIds_cons]; exact List.mem_cons_self _ _
        have hex : ∃ n ∈ nodes, n.id = nid := hqn nid hnid_q
        have hsome : (nodesById nodes nid).isSome = true :=
          (nodesById_isSome_iff nodes nid).mpr hex
        obtain ⟨node, hnode_eq⟩ := Option.isSome_iff_exists.mp hsome
        obtain ⟨hnode_mem, hnode_id⟩ := nodesById_some_spec nodes nid node hnode_eq
        have hnone : List.lookup nid visited = none := by
          rcases h : List.lookup nid visited with _ | v
          · rfl
          · exact absurd (by simp [h]) hvis
        have hstep : layoutLoop nodes flows (fuel + 1) ((nid, x, y) :: rest) visited =
            layoutLoop nodes flows fuel (rest ++ enqueueChildren node x y flows)
              (visited ++ [(nid, ⟨x, y - PyNum.ofInt (Int.fdiv (SIZES node.type).2 2),
                (SIZES node.type).1, (SIZES node.type).2⟩)]) := by
          simp [layoutLoop, hvis, hnode_eq]
        rw [hstep]
        generalize (⟨x, y - PyNum.ofInt (Int.fdiv (SIZES node.type).2 2),
          (SIZES node.type).1, (SIZES node.type).2⟩ : Coords) = c
        have hnid_ids : nid ∈ graphNodeIds nodes := (mem_graphNodeIds nodes nid).mpr hex
        have hU := unvisitedCount_place nodes visited nid c hnid_ids hnone
        have henq_ids := enqueueChildren_qIds node x y flows
        have henq_len : (enqueueChildren node x y flows).length ≤ flows.length := by
          have h2 : (enqueueChildren node x y flows).length =
              (sortedOutgoing flows node.id).length := by
            have := congrArg List.length henq_ids
            simpa [qIds] using this
          rw [h2]
          unfold sortedOutgoing
          rw [length_pySortByKey]
          exact List.length_filter_le _ _
        have hmeas : layoutMeasure nodes flows (rest ++ enqueueChildren node x y flows)
            (visited ++ [(nid, c)]) ≤ fuel := by
          simp only [layoutMeasure, List.length_cons, List.length_append] at hM ⊢
          rw [← hU, Nat.succ_mul] at hM
          omega
        have hnodup : (placedKeys (visited ++ [(nid, c)])).Nodup := by
          rw [placedKeys_append]
          refine hnd.append (by simp [placedKeys]) ?_
          intro z hz hz2
          simp [placedKeys] at hz2
          subst hz2
          exact not_mem_of_lookup_not_isSome visited z hvis hz
        have hvreach : ∀ id ∈ placedKeys (visited ++ [(nid, c)]),
            ReachableFrom nodes flows start id := by
          intro id hid
          rw [placedKeys_append] at hid
          rcases List.mem_append.mp hid with h | h
          · exact hvr id h
          · simp [placedKeys] at h
            subst h
            exact hqr id hnid_q
        have hqreach : ∀ id ∈ qIds (rest ++ enqueueChildren node x y flows),
            ReachableFrom nodes flows start id := by
          intro id hid
          rw [qIds_append] at hid
          rcases List.mem_append.mp hid with h | h
          · exact hqr id (by rw [qIds_cons]; exact List.mem_cons_of_mem _ h)
          · rw [henq_ids] at h
            obtain ⟨f, hfmem, rfl⟩ := List.mem_map.mp h
            obtain ⟨hf_flows, hf_src⟩ := (mem_sortedOutgoing flows node.id f).mp hfmem
            exact ReachableFrom.step f (hqr nid hnid_q) (hnode_id ▸ hsome) hf_flows
              (hf_src.trans hnode_id)
        have hqnodes : ∀ id ∈ qIds (rest ++ enqueueChildren node x y flows),
            ∃ n ∈ nodes, n.id = id := by
          intro id hid
          rw [qIds_append] at hid
          rcases List.mem_append.mp hid with h | h
          · exact hqn id (by rw [qIds_cons]; exact List.mem_cons_of_mem _ h)
          · rw [henq_ids] at h
            obtain ⟨f, hfmem, rfl⟩ := List.mem_map.mp h
            exact hrefs f ((mem_sortedOutgoing flows node.id f).mp hfmem).1
        have hstart' : start ∈ placedKeys (visited ++ [(nid, c)]) ∨
            start ∈ qIds (rest ++ enqueueChildren node x y flows) := by
          rcases hstart with h | h
          · exact Or.inl (by rw [placedKeys_append]; exact List.mem_append_left _ h)
          · rw [qIds_cons] at h
            rcases List.mem_cons.mp h with rfl | h'
            · refine Or.inl ?_
              rw [placedKeys_append]
              exact List.mem_append_right _ (by simp [placedKeys])
            · exact Or.inr (by rw [qIds_append]; exact List.mem_append_left _ h')
        have hclosed' : ∀ u ∈ placedKeys (visited ++ [(nid, c)]), ∀ f ∈ flows,
            f.source_id = u →
            f.target_id ∈ placedKeys (visited ++ [(nid, c)]) ∨
            f.target_id ∈ qIds (rest ++ enqueueChildren node x y flows) := by
          intro u hu f hf hsrc
          rw [placedKeys_append] at hu
          rcases List.mem_append.mp hu with hu' | hu'
          · rcases hclosed u hu' f hf hsrc with h | h
            · exact Or.inl (by rw [placedKeys_append]; exact List.mem_append_left _ h)
            · rw [qIds_cons] at h
              rcases List.mem_cons.mp h with heq | h'
              · refine Or.inl ?_
                rw [placedKeys_append]
                exact List.mem_append_right _ (by simp [placedKeys, heq])
              · exact Or.inr (by rw [qIds_append]; exact List.mem_append_left _ h')
          · simp [placedKeys] at hu'
            subst hu'
            refine Or.inr ?_
            rw [qIds_append]
            refine List.mem_append_right _ ?_
            rw [henq_ids]
            exact List.mem_map.mpr
              ⟨f, (mem_sortedOutgoing flows node.id f).mpr ⟨hf, hsrc.trans hnode_id.symm⟩, rfl⟩
        obtain ⟨m, hm, ⟨tail, htail⟩, hnd', hvr', hfull⟩ :=
          ih (rest ++ enqueueChildren node x y flows) (visited ++ [(nid, c)])
            hmeas hnodup hvreach hqreach hqnodes hstart' hclosed'
        refine ⟨m, hm, ⟨(nid, c) :: tail, ?_⟩, hnd', hvr', hfull⟩
        rw [htail, List.append_assoc]
        rfl

/- ===================== C9: termination and exactly-once placement ===================== -/

/-- C9, corrected. For every graph whose flow targets all name existing nodes,
the layout traversal (run with the always-sufficient fuel) terminates with a
placement map whose keys are exactly the ids reachable from the start node,
each placed exactly once (no duplicate keys). Without the added hypothesis the
traversal still terminates, but a flow to a non-existent target aborts it with
a `KeyError` before placing the remaining reachable nodes (see the
counterexample). -/
theorem c9_layout_traversal (g : ProcessGraph) (s : ProcessNode)
    (hstart : g.nodes.find? (fun n => n.type == NodeType.startEvent) = some s)
    (hrefs : ∀ f ∈ g.flows, ∃ n ∈ g.nodes, n.id = f.target_id) :
    ∃ m, computeLayout g = Except.ok m ∧ (placedKeys m).Nodup ∧
      (∀ id, ReachableFrom g.nodes g.flows s.id id ↔ id ∈ placedKeys m) := by
  have hs_mem : s ∈ g.nodes := List.mem_of_find?_eq_some hstart
  have hM : layoutMeasure g.nodes g.flows
      [(s.id, PyNum.ofInt X_START, PyNum.ofInt Y_START)] [] ≤ layoutFuel g := by
    simp only [layoutMeasure, layoutFuel, List.length_cons, List.length_nil]
    have h1 : unvisitedCount g.nodes [] ≤ g.nodes.length := unvisitedCount_le _ _
    have h2 : unvisitedCount g.nodes [] * (g.flows.length + 1) ≤
        g.nodes.length * (g.flows.length + 1) := Nat.mul_le_mul_right _ h1
    omega
  obtain ⟨m, hm, _, hnd, hvr, hfull⟩ :=
    layoutLoop_correct g.nodes g.flows s.id hrefs (layoutFuel g)
      [(s.id, PyNum.ofInt X_START, PyNum.ofInt Y_START)] [] hM
      (by simp [placedKeys])
      (by intro id hid; simp [placedKeys] at hid)
      (by
        intro id hid
        rw [qIds_cons] at hid
        rcases List.mem_cons.mp hid with rfl | h
        · exact ReachableFrom.refl
        · simp [qIds] at h)
      (by
        intro id hid
        rw [qIds_cons] at hid
        rcases List.mem_cons.mp hid with rfl | h
        · exact ⟨s, hs_mem, rfl⟩
        · simp [qIds] at h)
      (Or.inr (by rw [qIds_cons]; exact List.mem_cons_self _ _))
      (by intro u hu; simp [placedKeys] at hu)
  refine ⟨m, ?_, hnd, fun id => ⟨hfull id, hvr id⟩⟩
  simp [computeLayout, hstart, hm]

/-- C9, counterexample to the claim as stated: in `exDangling` the node `"t"`
is reachable from the start node, yet the traversal aborts with a `KeyError`
on the dangling target `"x"` (popped first), so no node is assigned
coordinates at all. -/
theorem c9_counterexample :
    ReachableFrom exDangling.nodes exDangling.flows "s" "t" ∧
    computeLayout exDangling = Except.error "KeyError: x" := by
  constructor
  · exact ReachableFrom.step ⟨"s", "t", none⟩ ReachableFrom.refl (by decide) (by decide) rfl
  · rfl

/-- Witness for `c9_layout_traversal` at the cyclic, shared-target graph
`exCyclic`. -/
theorem c9_witness :
    (exCyclic.nodes.find? (fun n => n.type == NodeType.startEvent) =
        some ⟨"s", NodeType.startEvent, "S"⟩ ∧
      ∀ f ∈ exCyclic.flows, ∃ n ∈ exCyclic.nodes, n.id = f.target_id) ∧
    (∃ m, computeLayout exCyclic = Except.ok m ∧ (placedKeys m).Nodup ∧
      (∀ id, ReachableFrom exCyclic.nodes exCyclic.flows "s" id ↔ id ∈ placedKeys m)) :=
  ⟨⟨rfl, by decide⟩,
    c9_layout_traversal exCyclic ⟨"s", NodeType.startEvent, "S"⟩ rfl (by decide)⟩

/- ===================== C7: edge waypoints ===================== -/

/-- C7, confirmed. Every emitted edge's waypoints are the source shape's
right-center then the target shape's left-center, with exactly two
intermediate waypoints at `start_x + X_GAP // 2` (first at the start y, then
at the end y) inserted precisely when the two y-coordinates differ in value,
so an edge has exactly 2 or exactly 4 waypoints in that order. -/
theorem c7_edge_waypoints (cs ct : Coords) :
    (edgeWaypoints cs ct =
      if PyRat.valNe (cs.y + PyNum.ofInt (Int.fdiv cs.height 2)).val
          (ct.y + PyNum.ofInt (Int.fdiv ct.height 2)).val = true then
        [(cs.x + PyNum.ofInt cs.width, cs.y + PyNum.ofInt (Int.fdiv cs.height 2)),
         (cs.x + PyNum.ofInt cs.width + PyNum.ofInt (Int.fdiv X_GAP 2),
           cs.y + PyNum.ofInt (Int.fdiv cs.height 2)),
         (cs.x + PyNum.ofInt cs.width + PyNum.ofInt (Int.fdiv X_GAP 2),
           ct.y + PyNum.ofInt (Int.fdiv ct.height 2)),
         (ct.x, ct.y + PyNum.ofInt (Int.fdiv ct.height 2))]
      else
        [(cs.x + PyNum.ofInt cs.width, cs.y + PyNum.ofInt (Int.fdiv cs.height 2)),
         (ct.x, ct.y + PyNum.ofInt (Int.fdiv ct.height 2))]) ∧
    ((edgeWaypoints cs ct).length = 2 ∨ (edgeWaypoints cs ct).length = 4) ∧
    (cs.y.val.den ≠ 0 → ct.y.val.den ≠ 0 →
      (((edgeWaypoints cs ct).length = 4 ↔
        (cs.y + PyNum.ofInt (Int.fdiv cs.height 2)).qVal ≠
          (ct.y + PyNum.ofInt (Int.fdiv ct.height 2)).qVal) ∧
       ((edgeWaypoints cs ct).length = 2 ↔
        (cs.y + PyNum.ofInt (Int.fdiv cs.height 2)).qVal =
          (ct.y + PyNum.ofInt (Int.fdiv ct.height 2)).qVal))) := by
  refine ⟨?_, ?_, ?_⟩
  · cases hvn : PyRat.valNe (cs.y + PyNum.ofInt (Int.fdiv cs.height 2)).val
        (ct.y + PyNum.ofInt (Int.fdiv ct.height 2)).val <;>
      simp [edgeWaypoints, hvn]
  · cases hvn : PyRat.valNe (cs.y + PyNum.ofInt (Int.fdiv cs.height 2)).val
        (ct.y + PyNum.ofInt (Int.fdiv ct.height 2)).val
    · exact Or.inl (by simp [edgeWaypoints, hvn])
    · exact Or.inr (by simp [edgeWaypoints, hvn])
  · intro h1 h2
    have hsden : (cs.y + PyNum.ofInt (Int.fdiv cs.height 2)).val.den ≠ 0 := by
      simp only [PyNum.add_def, PyRat.add, PyNum.ofInt, PyRat.ofInt]
      simpa using h1
    have htden : (ct.y + PyNum.ofInt (Int.fdiv ct.height 2)).val.den ≠ 0 := by
      simp only [PyNum.add_def, PyRat.add, PyNum.ofInt, PyRat.ofInt]
      simpa using h2
    have hiff := PyRat.valEq_iff (cs.y + PyNum.ofInt (Int.fdiv cs.height 2)).val
      (ct.y + PyNum.ofInt (Int.fdiv ct.height 2)).val hsden htden
    cases hvn : PyRat.valNe (cs.y + PyNum.ofInt (Int.fdiv cs.height 2)).val
        (ct.y + PyNum.ofInt (Int.fdiv ct.height 2)).val
    · have hq : (cs.y + PyNum.ofInt (Int.fdiv cs.height 2)).qVal =
          (ct.y + PyNum.ofInt (Int.fdiv ct.height 2)).qVal := by
        apply hiff.mp
        simpa [PyRat.valNe] using hvn
      constructor
      · simp [edgeWaypoints, hvn, hq]
      · simp [edgeWaypoints, hvn, hq]
    · have hq : ¬ (cs.y + PyNum.ofInt (Int.fdiv cs.height 2)).qVal =
          (ct.y + PyNum.ofInt (Int.fdiv ct.height 2)).qVal := by
        intro he
        have := hiff.mpr he
        simp [PyRat.valNe, this] at hvn
      constructor
      · simp [edgeWaypoints, hvn, hq]
      · simp [edgeWaypoints, hvn, hq]

/- ===================== C1: two-run determinism of the compiled document ===================== -/

theorem buildFlows_supply_agree (visited : List (String × Coords)) :
    ∀ (flows : List ProcessFlow) (s1 s2 : Nat → String) (k : Nat),
      (∀ i, k ≤ i → i < k + flows.length → s1 i = s2 i) →
      buildFlows visited s1 flows k = buildFlows visited s2 flows k := by
  intro flows
  induction flows with
  | nil => intro s1 s2 k h; rfl
  | cons f rest ih =>
    intro s1 s2 k h
    have hk : s1 k = s2 k := h k (le_refl k) (by simp)
    have hlen : (f :: rest).length = rest.length + 1 := rfl
    simp only [buildFlows]
    rw [hk, ih s1 s2 (k + 1) (fun i h1 h2 => h i (by omega) (by rw [hlen]; omega))]

/-- C1, corrected. The compiled document is a deterministic function of the
graph and of the first `4 + |flows|` generated unique ids: two runs whose
uuid4 draws agree on those indices produce byte-identical `bpmn_xml` output.
Two runs of the unmodified code draw fresh uuid4 values, and outputs then
differ in the generated ids (see the counterexample), so the claim as stated
fails. -/
theorem c1_determinism_modulo_ids (g : ProcessGraph) (r : String) (s1 s2 : Nat → String)
    (h : ∀ i, i < 4 + g.flows.length → s1 i = s2 i) :
    bpmn_engineer_agent (some g) (some ⟨"SUCCESS", r⟩) s1 =
      bpmn_engineer_agent (some g) (some ⟨"SUCCESS", r⟩) s2 := by
  have hdoc : buildDocument g s1 = buildDocument g s2 := by
    unfold buildDocument
    rw [h 0 (by omega), h 1 (by omega), h 2 (by omega), h 3 (by omega)]
    cases computeLayout g with
    | error e => exact rfl
    | ok visited =>
      dsimp only
      cases hbs : buildShapes g.nodes visited with
      | error e => exact rfl
      | ok p =>
        obtain ⟨ns, ss⟩ := p
        dsimp only
        rw [buildFlows_supply_agree visited g.flows s1 s2 4 (fun i h1 h2 => h i (by omega))]
  have hagent : ∀ s : Nat → String,
      bpmn_engineer_agent (some g) (some ⟨"SUCCESS", r⟩) s =
        match buildDocument g s with
        | Except.ok d => some d
        | Except.error _ => none := by
    intro s
    rfl
  rw [hagent s1, hagent s2, hdoc]

set_option maxRecDepth 8000 in
/-- C1, counterexample to the claim as stated: on the same accepted graph, two
runs whose uuid4 draws differ (`supplyA` versus `supplyB`) produce documents
that are not byte-identical. -/
theorem c1_counterexample :
    bpmn_engineer_agent (some exStartOnly) (some rptSuccess) supplyA ≠
      bpmn_engineer_agent (some exStartOnly) (some rptSuccess) supplyB := by
  decide

set_option maxRecDepth 8000 in
/-- Witness for `c1_determinism_modulo_ids`: two supplies agreeing on the
first `4 + 1` draws give byte-identical documents for `exOkGraph`. -/
theorem c1_witness :
    (∀ i, i < 4 + exOkGraph.flows.length → supplyU i = supplyV i) ∧
    bpmn_engineer_agent (some exOkGraph) (some ⟨"SUCCESS", "ok"⟩) supplyU =
      bpmn_engineer_agent (some exOkGraph) (some ⟨"SUCCESS", "ok"⟩) supplyV :=
  ⟨by decide, c1_determinism_modulo_ids exOkGraph "ok" supplyU supplyV (by decide)⟩

/- ===================== C8: escaping of label and title text ===================== -/

theorem escapeAttribChar_no_specials (ch : Char) (c : Char)
    (hc : c ∈ escapeAttribChar ch) : c ≠ '<' ∧ c ≠ '"' ∧ c ≠ '>' := by
  unfold escapeAttribChar at hc
  by_cases h1 : ch = '&'
  · rw [if_pos h1] at hc
    simp only [show ("&amp;".data) = ['&', 'a', 'm', 'p', ';'] from rfl, List.mem_cons,
      List.not_mem_nil, or_false] at hc
    rcases hc with rfl | rfl | rfl | rfl | rfl <;> exact ⟨by decide, by decide, by decide⟩
  · rw [if_neg h1] at hc
    by_cases h2 : ch = '<'
    · rw [if_pos h2] at hc
      simp only [show ("&lt;".data) = ['&', 'l', 't', ';'] from rfl, List.mem_cons,
        List.not_mem_nil, or_false] at hc
      rcases hc with rfl | rfl | rfl | rfl <;> exact ⟨by decide, by decide, by decide⟩
    · rw [if_neg h2] at hc
      by_cases h3 : ch = '>'
      · rw [if_pos h3] at hc
        simp only [show ("&gt;".data) = ['&', 'g', 't', ';'] from rfl, List.mem_cons,
          List.not_mem_nil, or_false] at hc
        rcases hc with rfl | rfl | rfl | rfl <;> exact ⟨by decide, by decide, by decide⟩
      · rw [if_neg h3] at hc
        by_cases h4 : ch = '"'
        · rw [if_pos h4] at hc
          simp only [show ("&quot;".data) = ['&', 'q', 'u', 'o', 't', ';'] from rfl,
            List.mem_cons, List.not_mem_nil, or_false] at hc
          rcases hc with rfl | rfl | rfl | rfl | rfl | rfl <;>
            exact ⟨by decide, by decide, by decide⟩
        · rw [if_neg h4] at hc
          by_cases h5 : ch = '\x0d'
          · rw [if_pos h5] at hc
            simp only [show ("&#13;".data) = ['&', '#', '1', '3', ';'] from rfl, List.mem_cons,
              List.not_mem_nil, or_false] at hc
            rcases hc with rfl | rfl | rfl | rfl | rfl <;>
              exact ⟨by decide, by decide, by decide⟩
          · rw [if_neg h5] at hc
            by_cases h6 : ch = '\n'
            · rw [if_pos h6] at hc
              simp only [show ("&#10;".data) = ['&', '#', '1', '0', ';'] from rfl,
                List.mem_cons, List.not_mem_nil, or_false] at hc
              rcases hc with rfl | rfl | rfl | rfl | rfl <;>
                exact ⟨by decide, by decide, by decide⟩
            · rw [if_neg h6] at hc
              by_cases h7 : ch = '\t'
              · rw [if_pos h7] at hc
                simp only [show ("&#09;".data) = ['&', '#', '0', '9', ';'] from rfl,
                  List.mem_cons, List.not_mem_nil, or_false] at hc
                rcases hc with rfl | rfl | rfl | rfl | rfl <;>
                  exact ⟨by decide, by decide, by decide⟩
              · rw [if_neg h7] at hc
                simp only [List.mem_singleton] at hc
                subst hc
                exact ⟨h2, h4, h3⟩

set_option maxRecDepth 8000 in
/-- C8, corrected. Labels and titles are escaped twice, not once: the source
pre-escapes with the 3-character escape (`&`, `<`, `>`) and the serializer
escapes every attribute value again, so for the node labeled `A & B <done>`
the document contains the double-escaped text
`A &amp;amp; B &amp;lt;done&amp;gt;` (not the singly-escaped form the claim
asserts, see the counterexample); the document is still well-formed markup at
the attribute level, since rendered attribute values never contain a raw `<`,
`"` or `>`. -/
theorem c8_double_escaping :
    (∀ (label : String), ∀ c ∈ (escapeAttrib (sax_escape label)).data,
      c ≠ '<' ∧ c ≠ '"' ∧ c ≠ '>') ∧
    escDoc = (bpmn_engineer_agent (some exEscapeGraph) (some rptSuccess) supplyU).getD "" ∧
    strContains "A &amp;amp; B &amp;lt;done&amp;gt;" escDoc = true := by
  refine ⟨?_, rfl, by decide⟩
  intro label c hc
  have hc' : c ∈ ((sax_escape label).data.map escapeAttribChar).flatten := hc
  rw [List.mem_flatten] at hc'
  obtain ⟨l, hl, hcl⟩ := hc'
  rw [List.mem_map] at hl
  obtain ⟨ch, _, rfl⟩ := hl
  exact escapeAttribChar_no_specials ch c hcl

set_option maxRecDepth 8000 in
/-- C8, counterexample to the claim as stated: the document produced for the
node labeled `A & B <done>` does not contain that text in (singly-)escaped
form — the pre-escaped text is escaped a second time by the serializer. -/
theorem c8_counterexample :
    (bpmn_engineer_agent (some exEscapeGraph) (some rptSuccess) supplyU).isSome = true ∧
    strContains "A &amp; B &lt;done&gt;" escDoc = false ∧
    strContains "A & B <done>" escDoc = false := by
  decide

/- ===================== C10: no document without a validated graph ===================== -/

/-- C10, confirmed. The compiler stage emits a document only for validated
input: a missing structured graph yields `bpmn_xml = none`; a validation
report whose status is not SUCCESS yields `none`; and any internal failure of
the layout/serialization body (notably a flow endpoint absent from the
computed placements) yields `none` rather than a partial document. -/
theorem c10_no_partial_output (gOpt : Option ProcessGraph) (vr : Option ValidationReport)
    (supply : Nat → String) :
    (gOpt = none → bpmn_engineer_agent gOpt vr supply = none) ∧
    (vr.map ValidationReport.status ≠ some "SUCCESS" →
      bpmn_engineer_agent gOpt vr supply = none) ∧
    (∀ (g : ProcessGraph) (e : String), gOpt = some g →
      buildDocument g supply = Except.error e →
      bpmn_engineer_agent gOpt vr supply = none) := by
  refine ⟨?_, ?_, ?_⟩
  · rintro rfl
    rfl
  · intro hst
    cases gOpt with
    | none => rfl
    | some g => simp [bpmn_engineer_agent, hst]
  · rintro g e rfl herr
    by_cases hst : vr.map ValidationReport.status ≠ some "SUCCESS"
    · simp [bpmn_engineer_agent, hst]
    · simp [bpmn_engineer_agent, hst, herr]
